import Mathlib

/-!
Verification of the leaderboard scraper core (`src/Scripts/Scrape/Main.py`).

The Python program is shallowly embedded: JSON values become the inductive
`Json` (numbers are modelled as integers), Python dicts become insertion
ordered association lists, the module level mutable state of `BucketManager`
becomes the record `BMState`, the file system becomes the record `Disk`, and
the crawl loop `run` becomes the fuel indexed function `runLoop` over an
oracle `Env` supplying, per iteration, the fetch outcome, the value of the
stop flag, and whether the periodic flush timer fires.
-/

namespace Scrape

/-- JSON values as decoded by `json.load`; numbers are modelled as integers
(no claim under verification involves fractional numbers).  Objects are
insertion ordered association lists with unique keys, matching Python dicts
produced by the json module. -/
inductive Json where
  | null
  | bool (b : Bool)
  | num (n : Int)
  | str (s : String)
  | arr (xs : List Json)
  | obj (kvs : List (String × Json))

/-- Lookup in an association list (Python `d[k]` / `k in d`), first match. -/
def lookupA {κ α : Type} [DecidableEq κ] : List (κ × α) → κ → Option α
  | [], _ => none
  | (k₀, v₀) :: rest, k => if k₀ = k then some v₀ else lookupA rest k

/-- Python dict assignment `d[k] = v`: replace in place if the key exists,
otherwise append at the end (insertion order semantics). -/
def setA {κ α : Type} [DecidableEq κ] : List (κ × α) → κ → α → List (κ × α)
  | [], k, v => [(k, v)]
  | (k₀, v₀) :: rest, k, v =>
    if k₀ = k then (k, v) :: rest else (k₀, v₀) :: setA rest k v

/-- Python dict key removal `d.pop(k, None)`. -/
def delA {κ α : Type} [DecidableEq κ] : List (κ × α) → κ → List (κ × α)
  | [], _ => []
  | (k₀, v₀) :: rest, k => if k₀ = k then rest else (k₀, v₀) :: delA rest k

/-- Python truthiness of a decoded JSON value (`bool(x)`). -/
def pyTruthy : Json → Bool
  | .null => false
  | .bool b => b
  | .num n => n != 0
  | .str s => s != ""
  | .arr xs => !xs.isEmpty
  | .obj kvs => !kvs.isEmpty

/-- Whitespace accepted by Python `int(str)` around the digits. -/
def isPyWs (c : Char) : Bool :=
  c = ' ' || c = '\t' || c = '\n' || c = '\r' || c.toNat = 11 || c.toNat = 12

/-- Decimal value of a digit list (all characters assumed digits). -/
def digitsToNat (cs : List Char) : Nat :=
  cs.foldl (fun a c => a * 10 + (c.toNat - 48)) 0

/-- Nonempty all-digit run, as required by the Python integer literal body. -/
def digitsVal (cs : List Char) : Option Nat :=
  if cs ≠ [] ∧ cs.all Char.isDigit then some (digitsToNat cs) else none

/-- Core of Python `int(str)` after whitespace stripping: optional sign then
a nonempty digit run (digit-group underscores are not modelled). -/
def pyParseIntCore : List Char → Option Int
  | '+' :: rest => (digitsVal rest).map Int.ofNat
  | '-' :: rest => (digitsVal rest).map (fun n => -(Int.ofNat n : Int))
  | rest => (digitsVal rest).map Int.ofNat

/-- Python `int(s)` on a string: strip surrounding whitespace, then parse an
optionally signed decimal literal; `none` models the `ValueError`. -/
def pyParseIntStr (s : String) : Option Int :=
  pyParseIntCore (((s.data.dropWhile isPyWs).reverse.dropWhile isPyWs).reverse)

/-- Python `int(x)` on a decoded JSON value; `none` models the raised
`TypeError`/`ValueError` that `update_entry` catches. -/
def pyToInt : Json → Option Int
  | .num n => some n
  | .bool b => some (if b then 1 else 0)
  | .str s => pyParseIntStr s
  | _ => none

/-- `BUCKET_SIZE` constant of the scraper. -/
def BUCKET_SIZE : Int := 1000

/-- `rank_bucket_bounds` (Main.py lines 61-66): ranks `≤ 0` go to the
sentinel bucket `(0,0)`; otherwise a fixed-size range computed with Python
floor division `//`, modelled by `Int.fdiv`. -/
def rank_bucket_bounds (rank : Int) : Int × Int :=
  if rank ≤ 0 then (0, 0)
  else
    ((Int.fdiv (rank - 1) BUCKET_SIZE) * BUCKET_SIZE + 1,
     (Int.fdiv (rank - 1) BUCKET_SIZE) * BUCKET_SIZE + BUCKET_SIZE)

/-- The rank used by `update_entry` (Main.py lines 97-101):
`int(latest_obj.get("rank", 0) or 0)` with any exception giving 0.
`or 0` collapses falsy values to 0; a failed `int()` conversion is caught. -/
def entryRank (latest_obj : List (String × Json)) : Int :=
  let v := (lookupA latest_obj "rank").getD (Json.num 0)
  let w := if pyTruthy v then v else Json.num 0
  (pyToInt w).getD 0

/-- Lowercase hexadecimal digit. -/
def hexDigit (n : Nat) : Char :=
  if n < 10 then Char.ofNat (48 + n) else Char.ofNat (87 + n % 16)

/-- Four lowercase hex digits, as in a JSON `\uXXXX` escape. -/
def hex4 (n : Nat) : String :=
  String.mk [hexDigit (n / 4096 % 16), hexDigit (n / 256 % 16),
             hexDigit (n / 16 % 16), hexDigit (n % 16)]

/-- JSON `\uXXXX` escape of a code point, using a surrogate pair above the
basic multilingual plane, as emitted by `json.dumps` with `ensure_ascii`. -/
def uEscape (n : Nat) : String :=
  if n < 65536 then "\\u" ++ hex4 n
  else
    "\\u" ++ hex4 (55296 + (n - 65536) / 1024) ++
    "\\u" ++ hex4 (56320 + (n - 65536) % 1024)

/-- Escaping of one character inside a `json.dumps` string literal
(default `ensure_ascii=True`): short escapes for the common controls,
`\uXXXX` for other controls and all non-ASCII. -/
def jsonEscapeChar (c : Char) : String :=
  if c = '"' then "\\\""
  else if c = '\\' then "\\\\"
  else if c = '\n' then "\\n"
  else if c = '\r' then "\\r"
  else if c = '\t' then "\\t"
  else if c.toNat = 8 then "\\b"
  else if c.toNat = 12 then "\\f"
  else if c.toNat < 32 || 127 ≤ c.toNat then uEscape c.toNat
  else String.singleton c

/-- A `json.dumps` string literal, quotes included. -/
def jsonQuote (s : String) : String :=
  "\"" ++ String.join (s.data.map jsonEscapeChar) ++ "\""

/-- Lexicographic comparison of character lists by code point. -/
def charListLt : List Char → List Char → Bool
  | [], [] => false
  | [], _ :: _ => true
  | _ :: _, [] => false
  | c :: cs, d :: ds =>
    if c.toNat < d.toNat then true
    else if d.toNat < c.toNat then false
    else charListLt cs ds

/-- Strict ordering of strings used by `sort_keys=True`: Python compares
strings lexicographically by code point. -/
def strLt (s t : String) : Bool := charListLt s.data t.data

/-- Insert into a list sorted by `lt`, after any element not below the new
one (stable insertion sort step). -/
def insB {α : Type} (lt : α → α → Bool) (x : α) : List α → List α
  | [] => [x]
  | y :: ys => if lt y x then y :: insB lt x ys else x :: y :: ys

/-- Stable insertion sort. -/
def sortB {α : Type} (lt : α → α → Bool) (l : List α) : List α :=
  l.foldr (insB lt) []

mutual
/-- `json.dumps(·, sort_keys=True)` on a decoded value: default separators
`", "` and `": "`, keys sorted by code point. -/
def json_dumps_val : Json → String
  | .null => "null"
  | .bool true => "true"
  | .bool false => "false"
  | .num n => toString n
  | .str s => jsonQuote s
  | .arr xs => "[" ++ String.intercalate ", " (jdArr xs) ++ "]"
  | .obj kvs =>
    "\x7b" ++
    String.intercalate ", "
      ((sortB (fun p q => strLt p.1 q.1) (jdObj kvs)).map
        (fun p => jsonQuote p.1 ++ ": " ++ p.2)) ++
    "\x7d"

/-- Serialize each array element. -/
def jdArr : List Json → List String
  | [] => []
  | x :: xs => json_dumps_val x :: jdArr xs

/-- Serialize each object value, keeping the key for later sorting. -/
def jdObj : List (String × Json) → List (String × String)
  | [] => []
  | (k, v) :: rest => (k, json_dumps_val v) :: jdObj rest
end

/-- Escaping of one character inside a Python `repr` string literal with
quote character `q`: backslash and the quote are escaped, common controls
get short escapes, other ASCII controls get `\xXX`. -/
def pyReprEscapeChar (q : Char) (c : Char) : String :=
  if c = '\\' then "\\\\"
  else if c = q then "\\" ++ String.singleton q
  else if c = '\n' then "\\n"
  else if c = '\r' then "\\r"
  else if c = '\t' then "\\t"
  else if c.toNat < 32 || c.toNat = 127 then
    "\\x" ++ String.mk [hexDigit (c.toNat / 16), hexDigit (c.toNat % 16)]
  else String.singleton c

/-- Python `repr` of a string: single quotes, switching to double quotes
when the text contains a single quote but no double quote. -/
def pyReprStr (s : String) : String :=
  let q := if s.data.contains '\x27' && !(s.data.contains '"') then '"' else '\x27'
  String.singleton q ++ String.join (s.data.map (pyReprEscapeChar q)) ++ String.singleton q

mutual
/-- Python `repr` of a decoded JSON value (`None`/`True`/`False`, decimal
integers, quoted strings, `[...]` lists and `\x7b...\x7d` dicts in insertion
order). -/
def pyRepr : Json → String
  | .null => "None"
  | .bool true => "True"
  | .bool false => "False"
  | .num n => toString n
  | .str s => pyReprStr s
  | .arr xs => "[" ++ String.intercalate ", " (prArr xs) ++ "]"
  | .obj kvs => "\x7b" ++ String.intercalate ", " (prObj kvs) ++ "\x7d"

/-- `repr` of each list element. -/
def prArr : List Json → List String
  | [] => []
  | x :: xs => pyRepr x :: prArr xs

/-- `repr` of each dict item as `key: value`. -/
def prObj : List (String × Json) → List String
  | [] => []
  | (k, v) :: rest => (pyReprStr k ++ ": " ++ pyRepr v) :: prObj rest
end

/-- Python `str(x)`: identity on strings, `repr` on everything else. -/
def pyStr : Json → String
  | .str s => s
  | j => pyRepr j

/-- The fixed candidate identifier fields probed by `normalize_id`
(Main.py line 56), in priority order. -/
def CANDIDATE_KEYS : List String :=
  ["id", "profile_id", "user_id", "player_id", "profileId", "playerId", "id_str"]

/-- The probing loop of `normalize_id` (Main.py lines 56-59): first key that
is present with a non-`None` value wins and its value is `str(...)`-ed;
falling off the loop serializes the whole entry with sorted keys. -/
def normIdGo (entry : List (String × Json)) : List String → String
  | [] => json_dumps_val (.obj entry)
  | k :: ks =>
    match lookupA entry k with
    | some Json.null => normIdGo entry ks
    | some v => pyStr v
    | none => normIdGo entry ks

/-- `normalize_id` (Main.py lines 55-59). -/
def normalize_id (entry : List (String × Json)) : String :=
  normIdGo entry CANDIDATE_KEYS

/-- One stored bucket record `\x7b"latest": ..., "pages": [...]\x7d`
(Main.py line 109): the code always writes exactly this shape, so the value
type records it. -/
structure BRecord where
  latest : List (String × Json)
  pages : List Int

/-- One bucket: identifier to record, insertion ordered. -/
def Bucket : Type := List (String × BRecord)

/-- In-memory state of `BucketManager` (Main.py lines 80-84): the lazily
populated cache and the dirty flags, both keyed by `(start, end)`. -/
structure BMState where
  cache : List ((Int × Int) × Bucket)
  dirty : List ((Int × Int) × Bool)

/-- On-disk state seen by the crawler: the decoded content of each bucket
file `\x7broot\x7d/\x7bstart\x7dto\x7bend\x7d/data.json` and of the
checkpoint file `last.json` (`none` when absent or unreadable). -/
structure Disk where
  lastFile : Option Json
  bucketFiles : List ((Int × Int) × Bucket)

/-- `BucketManager._load_bucket` (Main.py lines 86-94): return the cached
bucket, or read it from disk (empty default), cache it and clear its dirty
flag. -/
def load_bucket (bm : BMState) (disk : Disk) (key : Int × Int) : Bucket × BMState :=
  match lookupA bm.cache key with
  | some b => (b, bm)
  | none =>
    let obj := (lookupA disk.bucketFiles key).getD []
    (obj, { cache := setA bm.cache key obj, dirty := setA bm.dirty key false })

/-- The merge step of `update_entry` (Main.py lines 105-109): read the
existing record (`\x7b\x7d` default), append the page only when absent,
replace `latest` wholesale. -/
def bucketAfter (b : Bucket) (uid : String) (latest_obj : List (String × Json))
    (page : Int) : Bucket :=
  let pages := ((lookupA b uid).map BRecord.pages).getD []
  let pages := if page ∈ pages then pages else pages ++ [page]
  setA b uid ⟨latest_obj, pages⟩

/-- `BucketManager.update_entry` (Main.py lines 96-110): compute the bucket
key from the record's rank, load the bucket, merge the record, mark dirty.
The in-place mutation of the cached dict is modelled by writing the merged
bucket back into the cache. -/
def update_entry (disk : Disk) (bm : BMState) (uid : String)
    (latest_obj : List (String × Json)) (page : Int) : BMState :=
  let key := rank_bucket_bounds (entryRank latest_obj)
  let lb := load_bucket bm disk key
  { cache := setA lb.2.cache key (bucketAfter lb.1 uid latest_obj page),
    dirty := setA lb.2.dirty key true }

/-- The iteration of `save_dirty` over a snapshot of the dirty table
(Main.py lines 112-119), threading manager state and disk. -/
def saveDirtyGo : List ((Int × Int) × Bool) → BMState → Disk → BMState × Disk
  | [], bm, d => (bm, d)
  | (key, flag) :: rest, bm, d =>
    if flag then
      saveDirtyGo rest
        { bm with dirty := setA bm.dirty key false }
        { d with bucketFiles := setA d.bucketFiles key ((lookupA bm.cache key).getD []) }
    else saveDirtyGo rest bm d

/-- `BucketManager.save_dirty` (Main.py lines 112-119): atomically persist
every dirty bucket and clear its flag. -/
def save_dirty (bm : BMState) (d : Disk) : BMState × Disk :=
  saveDirtyGo bm.dirty bm d

/-- The iteration of `force_save_all` over a snapshot of the cache keys
(Main.py lines 121-125). -/
def forceGo : List ((Int × Int) × Bucket) → BMState → Disk → BMState × Disk
  | [], bm, d => (bm, d)
  | (key, _) :: rest, bm, d =>
    forceGo rest
      { bm with dirty := setA bm.dirty key false }
      { d with bucketFiles := setA d.bucketFiles key ((lookupA bm.cache key).getD []) }

/-- `BucketManager.force_save_all` (Main.py lines 121-125): atomically
persist every loaded bucket, dirty or not. -/
def force_save_all (bm : BMState) (d : Disk) : BMState × Disk :=
  forceGo bm.cache bm d

/-- Observable content of the store for one `(key, uid)`: the cached bucket
when loaded, else the on-disk bucket (empty default), as a reader of
cache-over-disk sees it. -/
def storeRecord (disk : Disk) (bm : BMState) (key : Int × Int) (uid : String) :
    Option BRecord :=
  match lookupA bm.cache key with
  | some b => lookupA b uid
  | none => lookupA ((lookupA disk.bucketFiles key).getD []) uid

/-- Observable `pages` sequence for one `(key, uid)`, empty when the record
does not exist. -/
def pagesAt (disk : Disk) (bm : BMState) (key : Int × Int) (uid : String) :
    List Int :=
  ((storeRecord disk bm key uid).map BRecord.pages).getD []

/-- Outcome of one HTTP fetch as seen by `run`: a raised transport error
(connection failure, timeout, retries exhausted, bad status), or a 2xx body
that either parses as JSON or does not (`fetch_page` turns the latter into
`\x7b\x7d`, Main.py lines 72-78). -/
inductive HttpResult where
  | transportError
  | body (parsed : Option Json)

/-- `fetch_page`'s successful result (Main.py lines 75-78): the parsed JSON,
or the empty object when the body is not JSON. -/
def fetch_page_value (parsed : Option Json) : Json :=
  parsed.getD (Json.obj [])

/-- Record-array extraction of the crawl loop (Main.py lines 162-169):
an object with a `"data"` key is an envelope (falsy `data` collapses to `[]`
by `or []`, and `total` updates the best known total); a bare array is taken
as is; anything else yields an empty array. -/
def extract_data (resp : Json) (total : Json) : Json × Json :=
  match resp with
  | .obj kvs =>
    if (lookupA kvs "data").isSome then
      (if pyTruthy ((lookupA kvs "data").getD .null)
         then (lookupA kvs "data").getD .null
         else .arr [],
       (lookupA kvs "total").getD total)
    else (.arr [], total)
  | .arr xs => (.arr xs, total)
  | _ => (.arr [], total)

/-- Per-record processing of one page (Main.py lines 178-183): derive the
identifier from the raw entry, strip `history`, update the bucket store.
A non-dict entry raises in Python; the Bool is `false` when that happens,
returning the partially updated state. -/
def processEntries (disk : Disk) (page : Int) :
    BMState → List Json → BMState × Bool
  | bm, [] => (bm, true)
  | bm, .obj kvs :: rest =>
    processEntries disk page
      (update_entry disk bm (normalize_id kvs) (delA kvs "history") page) rest
  | bm, _ :: _ => (bm, false)

/-- Oracles the loop consumes at iteration `i`: the fetch outcome, the value
of the `_stop` flag at the top-of-loop check, and whether the wall-clock
flush interval has elapsed (Main.py line 203). -/
structure Env where
  http : Nat → HttpResult
  stopAt : Nat → Bool
  flushAt : Nat → Bool

/-- Loop-local state of `run` (Main.py lines 140-147): the page cursor, the
in-memory checkpoint dict `last`, the best known `total_expected`
(`Json.null` models Python `None`), the bucket manager and the disk. -/
structure RunState where
  page : Int
  lastKv : List (String × Json)
  total : Json
  bm : BMState
  disk : Disk

/-- How one iteration ended, for the whole crawl. -/
inductive Outcome where
  | stopped
  | complete
  | crashed
  | fuelOut
deriving DecidableEq, Repr

/-- The crawl loop of `run` (Main.py lines 149-207), fuel indexed, returning
the list of pages for which a fetch was attempted, the way the loop ended,
and the final state.  Per iteration: honor the stop flag (persist checkpoint,
flush all, stop); fetch (a transport error sleeps and retries the same page
with nothing changed); extract the record array (an empty one persists the
checkpoint at the current page with `complete=true`, flushes all, stops);
process each record; advance and persist the checkpoint; flush dirty buckets
when the save interval elapsed. -/
def runLoop (env : Env) : Nat → Nat → RunState → List Int × Outcome × RunState
  | 0, _, st => ([], .fuelOut, st)
  | fuel + 1, i, st =>
    if env.stopAt i then
      let kvs := setA st.lastKv "page" (.num st.page)
      let fs := force_save_all st.bm { st.disk with lastFile := some (.obj kvs) }
      ([], .stopped, { st with lastKv := kvs, bm := fs.1, disk := fs.2 })
    else
      match env.http i with
      | .transportError =>
        let r := runLoop env fuel (i + 1) st
        (st.page :: r.1, r.2.1, r.2.2)
      | .body parsed =>
        let resp := fetch_page_value parsed
        let ex := extract_data resp st.total
        if pyTruthy ex.1 then
          match ex.1 with
          | .arr entries =>
            let pr := processEntries st.disk st.page st.bm entries
            if pr.2 then
              let kvs := setA st.lastKv "page" (.num (st.page + 1))
              let st1 : RunState :=
                { page := st.page + 1, lastKv := kvs, total := ex.2, bm := pr.1,
                  disk := { st.disk with lastFile := some (.obj kvs) } }
              let st2 :=
                if env.flushAt i then
                  let sd := save_dirty st1.bm st1.disk
                  { st1 with bm := sd.1,
                             disk := { sd.2 with lastFile := some (.obj kvs) } }
                else st1
              let r := runLoop env fuel (i + 1) st2
              (st.page :: r.1, r.2.1, r.2.2)
            else ([st.page], .crashed, { st with total := ex.2, bm := pr.1 })
          | _ => ([st.page], .crashed, { st with total := ex.2 })
        else
          let kvs := setA (setA st.lastKv "page" (.num st.page)) "complete" (.bool true)
          let fs := force_save_all st.bm { st.disk with lastFile := some (.obj kvs) }
          ([st.page], .complete,
           { st with lastKv := kvs, total := ex.2, bm := fs.1, disk := fs.2 })

/-- Startup of `run` (Main.py lines 140-147): load `last.json` (defaulting
to `\x7b"page": 1\x7d` when absent or unreadable), read `page` (default 1,
Python booleans act as 0/1 integers), clamp non-positive values to 1, start
with an empty bucket cache.  `none` models the uncaught `TypeError` raised
when the stored page value is not comparable to 0. -/
def initState (lastFile : Option Json) (bfs : List ((Int × Int) × Bucket)) :
    Option RunState :=
  let lastJ := lastFile.getD (.obj [("page", .num 1)])
  match lastJ with
  | .obj kvs =>
    match (lookupA kvs "page").getD (.num 1) with
    | .num n =>
      some ⟨if n ≤ 0 then 1 else n, kvs, .null, ⟨[], []⟩, ⟨lastFile, bfs⟩⟩
    | .bool b =>
      some ⟨if (if b then (1 : Int) else 0) ≤ 0 then 1 else if b then 1 else 0,
            kvs, .null, ⟨[], []⟩, ⟨lastFile, bfs⟩⟩
    | _ => none
  | _ => none

/-- The whole crawl from the persisted checkpoint. -/
def runCrawl (env : Env) (fuel : Nat) (lastFile : Option Json)
    (bfs : List ((Int × Int) × Bucket)) : Option (List Int × Outcome × RunState) :=
  (initState lastFile bfs).map (runLoop env fuel 0)

/-- The individually fallible operations inside `atomic_write`
(Main.py lines 28-41): directory creation, opening the temporary file,
serializing into it, `fsync`, and the final rename. -/
inductive AWStep where
  | mkdirS
  | openS
  | dumpS
  | fsyncS
  | replaceS
deriving DecidableEq, Repr

/-- File-system view of one `atomic_write` destination: content of the
sibling temporary file and of the destination file. -/
structure FState where
  tmp : Option String
  dst : Option String
deriving DecidableEq, Repr

/-- `atomic_write` (Main.py lines 28-41) under an error oracle saying which
steps raise: returns the resulting file-system state and the first raised
error that escapes, if any.  The `fsync` call is wrapped in
`try/except Exception: pass`, so its failure never escapes and the write
continues to the rename. -/
def atomic_write (fails : AWStep → Bool) (content : String) (fs : FState) :
    FState × Option AWStep :=
  if fails .mkdirS then (fs, some .mkdirS)
  else if fails .openS then (fs, some .openS)
  else if fails .dumpS then ({ fs with tmp := some "" }, some .dumpS)
  else if fails .replaceS then ({ fs with tmp := some content }, some .replaceS)
  else ({ tmp := none, dst := some content }, none)

/-- Null test on a JSON value. -/
def isNullJ : Json → Bool
  | .null => true
  | _ => false

/-- Identifier derivation as the spec words it: the first candidate field
that is present with a non-null value, converted to a string; otherwise the
canonical (sorted key order) JSON serialization of the whole record. -/
def specIdentifier (entry : List (String × Json)) : String :=
  match CANDIDATE_KEYS.find?
      (fun k => (lookupA entry k).isSome &&
        !isNullJ ((lookupA entry k).getD .null)) with
  | some k => pyStr ((lookupA entry k).getD .null)
  | none => json_dumps_val (.obj entry)

/-- A response body shape that is neither an envelope carrying a `data`
field nor a bare array (the cases the crawl loop knows). -/
def isOtherShape : Json → Bool
  | .obj kvs => !(lookupA kvs "data").isSome
  | .arr _ => false
  | _ => true

/-! ## Association list lemmas -/

theorem lookupA_setA_self {κ α : Type} [DecidableEq κ]
    (m : List (κ × α)) (k : κ) (v : α) :
    lookupA (setA m k v) k = some v := by
  induction m with
  | nil => simp [setA, lookupA]
  | cons hd tl ih =>
    obtain ⟨k₀, v₀⟩ := hd
    by_cases h : k₀ = k <;> simp [setA, lookupA, h, ih]

theorem lookupA_setA_ne {κ α : Type} [DecidableEq κ]
    (m : List (κ × α)) (k k' : κ) (v : α) (h : k' ≠ k) :
    lookupA (setA m k v) k' = lookupA m k' := by
  induction m with
  | nil => simp [setA, lookupA, Ne.symm h]
  | cons hd tl ih =>
    obtain ⟨k₀, v₀⟩ := hd
    by_cases hk : k₀ = k
    · subst hk
      simp [setA, lookupA, Ne.symm h]
    · simp [setA, lookupA, hk, ih]

theorem setA_setA {κ α : Type} [DecidableEq κ]
    (m : List (κ × α)) (k : κ) (v w : α) :
    setA (setA m k v) k w = setA m k w := by
  induction m with
  | nil => simp [setA]
  | cons hd tl ih =>
    obtain ⟨k₀, v₀⟩ := hd
    by_cases h : k₀ = k <;> simp [setA, h, ih]

/-! ## Claim theorems -/

/-- C2: the rank bucket assigner is pure and total over all integers: every
rank ≤ 0 yields the sentinel `(0,0)`; every rank > 0 yields
`(start, start + S - 1)` with `start = floor((rank-1)/S)*S + 1` (stated via
`Int./`, which is floor division for the nonnegative numerator, and checked
to actually contain the rank); for S = 1000, ranks 1 and 1000 map to
`(1,1000)` and rank 1001 maps to `(1001,2000)`. -/
theorem rank_bucket_bounds_spec :
    (∀ rank : Int, rank ≤ 0 → rank_bucket_bounds rank = (0, 0)) ∧
    (∀ rank : Int, 0 < rank →
      rank_bucket_bounds rank =
        ((rank - 1) / 1000 * 1000 + 1, (rank - 1) / 1000 * 1000 + 1000)) ∧
    (∀ rank : Int, 0 < rank →
      (rank_bucket_bounds rank).1 ≤ rank ∧ rank ≤ (rank_bucket_bounds rank).2) ∧
    rank_bucket_bounds 1 = (1, 1000) ∧
    rank_bucket_bounds 1000 = (1, 1000) ∧
    rank_bucket_bounds 1001 = (1001, 2000) ∧
    rank_bucket_bounds 0 = (0, 0) ∧
    rank_bucket_bounds (-5) = (0, 0) := by
  have hediv : ∀ rank : Int, 0 < rank →
      rank_bucket_bounds rank =
        ((rank - 1) / 1000 * 1000 + 1, (rank - 1) / 1000 * 1000 + 1000) := by
    intro rank h
    rw [rank_bucket_bounds, if_neg (by omega)]
    rw [Int.fdiv_eq_ediv _ (by decide : (0 : Int) ≤ BUCKET_SIZE)]
    simp [BUCKET_SIZE]
  refine ⟨fun rank h => by simp [rank_bucket_bounds, h], hediv, ?_,
    by decide, by decide, by decide, by decide, by decide⟩
  intro rank h
  rw [hediv rank h]
  constructor
  · simp only
    omega
  · simp only
    omega

/-- C2 witness: the quantified conjuncts applied at rank 7. -/
theorem rank_bucket_bounds_spec_witness :
    rank_bucket_bounds 7 = ((7 - 1) / 1000 * 1000 + 1, (7 - 1) / 1000 * 1000 + 1000) ∧
    (rank_bucket_bounds 7).1 ≤ 7 ∧ (7 : Int) ≤ (rank_bucket_bounds 7).2 ∧
    rank_bucket_bounds (-3) = (0, 0) :=
  ⟨rank_bucket_bounds_spec.2.1 7 (by decide),
   (rank_bucket_bounds_spec.2.2.1 7 (by decide)).1,
   (rank_bucket_bounds_spec.2.2.1 7 (by decide)).2,
   rank_bucket_bounds_spec.1 (-3) (by decide)⟩

/-- C10: `update_entry` never raises on account of the rank field: a rank
that is absent, `null`, `0`, `false`, the empty string, or a string that
does not parse as an integer yields rank 0 and hence the sentinel bucket
`(0,0)`; a nonempty numeric string is coerced to its integer value; and for
every record whatsoever the update completes, marking the bucket chosen
from the coerced rank dirty. -/
theorem update_rank_total :
    (∀ rec : List (String × Json), lookupA rec "rank" = none →
       rank_bucket_bounds (entryRank rec) = (0, 0)) ∧
    (∀ rec : List (String × Json), lookupA rec "rank" = some .null →
       rank_bucket_bounds (entryRank rec) = (0, 0)) ∧
    (∀ rec : List (String × Json), lookupA rec "rank" = some (.num 0) →
       rank_bucket_bounds (entryRank rec) = (0, 0)) ∧
    (∀ rec : List (String × Json), lookupA rec "rank" = some (.bool false) →
       rank_bucket_bounds (entryRank rec) = (0, 0)) ∧
    (∀ rec : List (String × Json), lookupA rec "rank" = some (.str "") →
       rank_bucket_bounds (entryRank rec) = (0, 0)) ∧
    (∀ (rec : List (String × Json)) (s : String),
       lookupA rec "rank" = some (.str s) → pyParseIntStr s = none →
       rank_bucket_bounds (entryRank rec) = (0, 0)) ∧
    (∀ (rec : List (String × Json)) (s : String) (v : Int),
       lookupA rec "rank" = some (.str s) → s ≠ "" → pyParseIntStr s = some v →
       entryRank rec = v) ∧
    (∀ (disk : Disk) (bm : BMState) (uid : String)
       (rec : List (String × Json)) (page : Int),
       lookupA (update_entry disk bm uid rec page).dirty
         (rank_bucket_bounds (entryRank rec)) = some true) ∧
    rank_bucket_bounds (entryRank [("rank", .str "1500")]) = (1001, 2000) := by
  refine ⟨?_, ?_, ?_, ?_, ?_, ?_, ?_, ?_, by decide⟩
  · intro rec h
    simp [entryRank, h, pyTruthy, pyToInt, rank_bucket_bounds]
  · intro rec h
    simp [entryRank, h, pyTruthy, pyToInt, rank_bucket_bounds]
  · intro rec h
    simp [entryRank, h, pyTruthy, pyToInt, rank_bucket_bounds]
  · intro rec h
    simp [entryRank, h, pyTruthy, pyToInt, rank_bucket_bounds]
  · intro rec h
    simp [entryRank, h, pyTruthy, pyToInt, rank_bucket_bounds]
  · intro rec s h hp
    by_cases hs : s = ""
    · subst hs
      simp [entryRank, h, pyTruthy, pyToInt, rank_bucket_bounds]
    · simp [entryRank, h, pyTruthy, pyToInt, hs, hp, rank_bucket_bounds]
  · intro rec s v h hs hp
    simp [entryRank, h, pyTruthy, pyToInt, hs, hp]
  · intro disk bm uid rec page
    unfold update_entry load_bucket
    cases hl : lookupA bm.cache (rank_bucket_bounds (entryRank rec)) <;>
      simp [hl, lookupA_setA_self]

/-- C10 witness: the routing applied at concrete records of each kind. -/
theorem update_rank_total_witness :
    rank_bucket_bounds (entryRank [("name", .str "bob")]) = (0, 0) ∧
    rank_bucket_bounds (entryRank [("rank", .null)]) = (0, 0) ∧
    rank_bucket_bounds (entryRank [("rank", .str "12x")]) = (0, 0) ∧
    entryRank [("rank", .str "77")] = 77 ∧
    lookupA (update_entry ⟨none, []⟩ ⟨[], []⟩ "u" [("rank", .num 42)] 3).dirty
      (rank_bucket_bounds (entryRank [("rank", .num 42)])) = some true :=
  ⟨update_rank_total.1 _ rfl,
   update_rank_total.2.1 _ rfl,
   update_rank_total.2.2.2.2.2.1 _ "12x" rfl rfl,
   update_rank_total.2.2.2.2.2.2.1 _ "77" 77 rfl (by decide) rfl,
   update_rank_total.2.2.2.2.2.2.2.1 ⟨none, []⟩ ⟨[], []⟩ "u" _ 3⟩

/-- C9 counterexample: it is not true that every I/O error arising inside
`atomic_write` propagates to the caller — when the `fsync` step fails (and
only it), the error is swallowed by the `try/except Exception: pass` around
`os.fsync` and the write completes normally. -/
theorem atomic_write_fsync_suppressed :
    ¬ (∀ (fails : AWStep → Bool) (content : String) (fs : FState),
         (∃ s, fails s = true) → (atomic_write fails content fs).2.isSome = true) := by
  intro hall
  have h2 := hall (fun s => decide (s = AWStep.fsyncS)) "x" ⟨none, none⟩
    ⟨AWStep.fsyncS, by decide⟩
  simp [atomic_write] at h2

/-- C9 amended: every I/O error during directory creation, opening the
temporary file, serializing into it, or the final atomic replace propagates
to the caller as the first failing step; only a failure of the `fsync` step
is suppressed, in which case the write still completes and replaces the
destination with the full content. -/
theorem atomic_write_propagation (fails : AWStep → Bool) (content : String)
    (fs : FState) :
    (fails .mkdirS = true →
       (atomic_write fails content fs).2 = some .mkdirS) ∧
    (fails .mkdirS = false → fails .openS = true →
       (atomic_write fails content fs).2 = some .openS) ∧
    (fails .mkdirS = false → fails .openS = false → fails .dumpS = true →
       (atomic_write fails content fs).2 = some .dumpS) ∧
    (fails .mkdirS = false → fails .openS = false → fails .dumpS = false →
       fails .replaceS = true →
       (atomic_write fails content fs).2 = some .replaceS) ∧
    (fails .mkdirS = false → fails .openS = false → fails .dumpS = false →
       fails .replaceS = false →
       atomic_write fails content fs = (⟨none, some content⟩, none)) := by
  refine ⟨?_, ?_, ?_, ?_, ?_⟩ <;>
    · intros
      simp [atomic_write, *]

/-- C9 witness: with an oracle failing exactly the `fsync` step, the write
completes with no escaping error and the destination replaced. -/
theorem atomic_write_propagation_witness :
    atomic_write (fun s => decide (s = AWStep.fsyncS)) "c" ⟨none, none⟩ =
      (⟨none, some "c"⟩, none) :=
  (atomic_write_propagation (fun s => decide (s = AWStep.fsyncS)) "c"
    ⟨none, none⟩).2.2.2.2 (by decide) (by decide) (by decide) (by decide)

theorem normIdGo_eq (entry : List (String × Json)) (ks : List String) :
    normIdGo entry ks =
      match ks.find?
          (fun k => (lookupA entry k).isSome &&
            !isNullJ ((lookupA entry k).getD .null)) with
      | some k => pyStr ((lookupA entry k).getD .null)
      | none => json_dumps_val (.obj entry) := by
  induction ks with
  | nil => simp [normIdGo]
  | cons k ks ih =>
    cases hv : lookupA entry k with
    | none => simp [normIdGo, hv, List.find?_cons, ih]
    | some v =>
      cases v <;> simp [normIdGo, hv, List.find?_cons, isNullJ, ih]

/-- C7: the identifier of every record is the first present non-null value
among the fixed ordered candidate fields, converted to a string, with the
canonical sorted-key JSON serialization of the whole record as fallback;
concretely, `profile_id` beats `user_id`, and a record with no candidate
field serializes with its keys in sorted order. -/
theorem normalize_id_spec :
    (∀ entry : List (String × Json), normalize_id entry = specIdentifier entry) ∧
    normalize_id [("user_id", .num 2), ("profile_id", .num 1)] = "1" ∧
    normalize_id [("b", .num 2), ("a", .num 1)] = "\x7b\"a\": 1, \"b\": 2\x7d" :=
  ⟨fun entry => by simp [normalize_id, specIdentifier, normIdGo_eq],
   by decide, by decide⟩

theorem mem_pages_after (ps : List Int) (page : Int) :
    page ∈ (if page ∈ ps then ps else ps ++ [page]) := by
  split
  · assumption
  · simp

theorem bucketAfter_self (b : Bucket) (uid : String)
    (l : List (String × Json)) (page : Int) :
    bucketAfter (bucketAfter b uid l page) uid l page =
      bucketAfter b uid l page := by
  unfold bucketAfter
  rw [lookupA_setA_self]
  simp only [Option.map_some', Option.getD_some]
  rw [if_pos (mem_pages_after _ _), setA_setA]

/-- C1: `update_entry` is idempotent — repeating the same
`(identifier, record, page)` call leaves the entire bucket store state
(cache, dirty flags, and hence `pages` and `latest` of every record)
exactly as after the first call; moreover when the page was not yet
recorded, the repeated call leaves it recorded exactly once. -/
theorem update_entry_idempotent (disk : Disk) (bm : BMState) (uid : String)
    (latest_obj : List (String × Json)) (page : Int) :
    update_entry disk (update_entry disk bm uid latest_obj page) uid latest_obj page =
      update_entry disk bm uid latest_obj page ∧
    (page ∉ pagesAt disk bm (rank_bucket_bounds (entryRank latest_obj)) uid →
      List.count page
        (pagesAt disk (update_entry disk bm uid latest_obj page)
          (rank_bucket_bounds (entryRank latest_obj)) uid) = 1) := by
  constructor
  · unfold update_entry load_bucket
    cases h : lookupA bm.cache (rank_bucket_bounds (entryRank latest_obj)) with
    | some b =>
      simp only [h, lookupA_setA_self]
      rw [bucketAfter_self, setA_setA, setA_setA]
    | none =>
      simp only [h, lookupA_setA_self]
      rw [bucketAfter_self, setA_setA, setA_setA, setA_setA, setA_setA]
  · intro hnot
    unfold update_entry load_bucket
    unfold pagesAt storeRecord at hnot ⊢
    cases h : lookupA bm.cache (rank_bucket_bounds (entryRank latest_obj)) with
    | some b =>
      rw [h] at hnot
      simp only [h, lookupA_setA_self]
      unfold bucketAfter
      rw [lookupA_setA_self]
      simp only [Option.map_some', Option.getD_some]
      rw [if_neg hnot]
      simp [List.count_append, List.count_eq_zero.mpr hnot]
    | none =>
      rw [h] at hnot
      simp only [h, lookupA_setA_self]
      unfold bucketAfter
      rw [lookupA_setA_self]
      simp only [Option.map_some', Option.getD_some]
      rw [if_neg hnot]
      simp [List.count_append, List.count_eq_zero.mpr hnot]

/-- C1 witness: updating an empty store twice with page 5 gives the same
state as once, and `pages` holds 5 exactly once. -/
theorem update_entry_idempotent_witness :
    (5 : Int) ∉ pagesAt ⟨none, []⟩ ⟨[], []⟩
      (rank_bucket_bounds (entryRank [("rank", Json.num 9)])) "u" ∧
    update_entry ⟨none, []⟩
        (update_entry ⟨none, []⟩ ⟨[], []⟩ "u" [("rank", Json.num 9)] 5)
        "u" [("rank", Json.num 9)] 5 =
      update_entry ⟨none, []⟩ ⟨[], []⟩ "u" [("rank", Json.num 9)] 5 ∧
    List.count 5
      (pagesAt ⟨none, []⟩
        (update_entry ⟨none, []⟩ ⟨[], []⟩ "u" [("rank", Json.num 9)] 5)
        (rank_bucket_bounds (entryRank [("rank", Json.num 9)])) "u") = 1 :=
  ⟨by simp [pagesAt, storeRecord, lookupA],
   (update_entry_idempotent ⟨none, []⟩ ⟨[], []⟩ "u" [("rank", Json.num 9)] 5).1,
   (update_entry_idempotent ⟨none, []⟩ ⟨[], []⟩ "u" [("rank", Json.num 9)] 5).2
     (by simp [pagesAt, storeRecord, lookupA])⟩

theorem update_frame (disk : Disk) (bm : BMState) (uid : String)
    (l : List (String × Json)) (page : Int) (k : Int × Int) (u : String)
    (h : (k, u) ≠ (rank_bucket_bounds (entryRank l), uid)) :
    storeRecord disk (update_entry disk bm uid l page) k u =
      storeRecord disk bm k u := by
  by_cases hk : k = rank_bucket_bounds (entryRank l)
  · subst hk
    have hu : u ≠ uid := by
      intro e
      exact h (by rw [e])
    unfold update_entry load_bucket storeRecord
    cases hc : lookupA bm.cache (rank_bucket_bounds (entryRank l)) with
    | some b =>
      simp only [hc, lookupA_setA_self]
      unfold bucketAfter
      rw [lookupA_setA_ne _ _ _ _ hu]
    | none =>
      simp only [hc, lookupA_setA_self]
      unfold bucketAfter
      rw [lookupA_setA_ne _ _ _ _ hu]
  · unfold update_entry load_bucket storeRecord
    cases hc : lookupA bm.cache (rank_bucket_bounds (entryRank l)) with
    | some b =>
      simp only [hc]
      rw [lookupA_setA_ne _ _ _ _ hk]
    | none =>
      simp only [hc]
      rw [lookupA_setA_ne _ _ _ _ hk, lookupA_setA_ne _ _ _ _ hk]

theorem update_pages_at (disk : Disk) (bm : BMState) (uid : String)
    (l : List (String × Json)) (page : Int) :
    pagesAt disk (update_entry disk bm uid l page)
        (rank_bucket_bounds (entryRank l)) uid =
      if page ∈ pagesAt disk bm (rank_bucket_bounds (entryRank l)) uid
      then pagesAt disk bm (rank_bucket_bounds (entryRank l)) uid
      else pagesAt disk bm (rank_bucket_bounds (entryRank l)) uid ++ [page] := by
  unfold pagesAt storeRecord update_entry load_bucket
  cases hc : lookupA bm.cache (rank_bucket_bounds (entryRank l)) with
  | some b =>
    simp only [hc, lookupA_setA_self]
    unfold bucketAfter
    rw [lookupA_setA_self]
    simp only [Option.map_some', Option.getD_some]
  | none =>
    simp only [hc, lookupA_setA_self]
    unfold bucketAfter
    rw [lookupA_setA_self]
    simp only [Option.map_some', Option.getD_some]

/-- C6: one `update_entry` call leaves the `pages` sequence of every other
record untouched, and for the updated record either leaves it unchanged
(page already present) or appends the one new page at the end; consequently
freedom from duplicates of all `pages` sequences is preserved across every
update. -/
theorem update_entry_pages_invariant (disk : Disk) (bm : BMState)
    (uid : String) (latest_obj : List (String × Json)) (page : Int) :
    (∀ (k : Int × Int) (u : String),
       (k, u) ≠ (rank_bucket_bounds (entryRank latest_obj), uid) →
       pagesAt disk (update_entry disk bm uid latest_obj page) k u =
         pagesAt disk bm k u) ∧
    (pagesAt disk (update_entry disk bm uid latest_obj page)
        (rank_bucket_bounds (entryRank latest_obj)) uid =
      if page ∈ pagesAt disk bm (rank_bucket_bounds (entryRank latest_obj)) uid
      then pagesAt disk bm (rank_bucket_bounds (entryRank latest_obj)) uid
      else pagesAt disk bm (rank_bucket_bounds (entryRank latest_obj)) uid
        ++ [page]) ∧
    ((∀ (k : Int × Int) (u : String), (pagesAt disk bm k u).Nodup) →
      ∀ (k : Int × Int) (u : String),
        (pagesAt disk (update_entry disk bm uid latest_obj page) k u).Nodup) := by
  refine ⟨?_, update_pages_at disk bm uid latest_obj page, ?_⟩
  · intro k u h
    unfold pagesAt
    rw [update_frame disk bm uid latest_obj page k u h]
  · intro hnod k u
    by_cases hk : (k, u) = (rank_bucket_bounds (entryRank latest_obj), uid)
    · have h1 : k = rank_bucket_bounds (entryRank latest_obj) :=
        congrArg Prod.fst hk
      have h2 : u = uid := congrArg Prod.snd hk
      rw [h1, h2]
      rw [update_pages_at disk bm uid latest_obj page]
      by_cases hmem :
          page ∈ pagesAt disk bm (rank_bucket_bounds (entryRank latest_obj)) uid
      · rw [if_pos hmem]
        exact hnod _ _
      · rw [if_neg hmem]
        refine List.Nodup.append (hnod _ _) (List.nodup_singleton page) ?_
        intro x hx hx'
        rw [List.mem_singleton] at hx'
        subst hx'
        exact hmem hx
    · unfold pagesAt
      rw [update_frame disk bm uid latest_obj page k u hk]
      exact hnod k u

/-- C6 witness: a concrete update on the empty store leaves an unrelated
record's pages unchanged, appends the page for the updated record, and
preserves duplicate freedom. -/
theorem update_entry_pages_invariant_witness :
    pagesAt ⟨none, []⟩
        (update_entry ⟨none, []⟩ ⟨[], []⟩ "u" [("rank", Json.num 9)] 4)
        (0, 0) "w" =
      pagesAt ⟨none, []⟩ ⟨[], []⟩ (0, 0) "w" ∧
    pagesAt ⟨none, []⟩
        (update_entry ⟨none, []⟩ ⟨[], []⟩ "u" [("rank", Json.num 9)] 4)
        (rank_bucket_bounds (entryRank [("rank", Json.num 9)])) "u" =
      (if (4 : Int) ∈ pagesAt ⟨none, []⟩ ⟨[], []⟩
          (rank_bucket_bounds (entryRank [("rank", Json.num 9)])) "u"
       then pagesAt ⟨none, []⟩ ⟨[], []⟩
          (rank_bucket_bounds (entryRank [("rank", Json.num 9)])) "u"
       else pagesAt ⟨none, []⟩ ⟨[], []⟩
          (rank_bucket_bounds (entryRank [("rank", Json.num 9)])) "u" ++ [4]) ∧
    (pagesAt ⟨none, []⟩
        (update_entry ⟨none, []⟩ ⟨[], []⟩ "u" [("rank", Json.num 9)] 4)
        (rank_bucket_bounds (entryRank [("rank", Json.num 9)])) "u").Nodup :=
  ⟨(update_entry_pages_invariant ⟨none, []⟩ ⟨[], []⟩ "u"
      [("rank", Json.num 9)] 4).1 (0, 0) "w" (by decide),
   (update_entry_pages_invariant ⟨none, []⟩ ⟨[], []⟩ "u"
      [("rank", Json.num 9)] 4).2.1,
   (update_entry_pages_invariant ⟨none, []⟩ ⟨[], []⟩ "u"
      [("rank", Json.num 9)] 4).2.2
     (fun k u => by simp [pagesAt, storeRecord, lookupA])
     (rank_bucket_bounds (entryRank [("rank", Json.num 9)])) "u"⟩

theorem lookupA_mem {κ α : Type} [DecidableEq κ] (m : List (κ × α)) (k : κ)
    (v : α) (h : lookupA m k = some v) : (k, v) ∈ m := by
  induction m with
  | nil => simp [lookupA] at h
  | cons hd tl ih =>
    obtain ⟨k₀, v₀⟩ := hd
    by_cases hk : k₀ = k
    · subst hk
      simp [lookupA] at h
      subst h
      exact List.mem_cons_self _ _
    · simp only [lookupA, if_neg hk] at h
      exact List.mem_cons_of_mem _ (ih h)

theorem forceGo_lastFile (ps : List ((Int × Int) × Bucket)) (bm : BMState)
    (d : Disk) : (forceGo ps bm d).2.lastFile = d.lastFile := by
  induction ps generalizing bm d with
  | nil => rfl
  | cons hd tl ih =>
    obtain ⟨k, v⟩ := hd
    simp [forceGo, ih]

theorem forceGo_lookup (ps : List ((Int × Int) × Bucket)) (bm : BMState)
    (d : Disk) (k : Int × Int) (b : Bucket)
    (hb : lookupA bm.cache k = some b)
    (h : (∃ v, (k, v) ∈ ps) ∨ lookupA d.bucketFiles k = some b) :
    lookupA (forceGo ps bm d).2.bucketFiles k = some b := by
  induction ps generalizing bm d with
  | nil =>
    rcases h with ⟨v, hv⟩ | hd2
    · simp at hv
    · exact hd2
  | cons hd tl ih =>
    obtain ⟨k₀, v₀⟩ := hd
    simp only [forceGo]
    refine ih _ _ hb ?_
    by_cases hkk : k₀ = k
    · subst hkk
      right
      simp only
      rw [lookupA_setA_self, hb]
      rfl
    · rcases h with ⟨v, hv⟩ | hd2
      · rcases List.mem_cons.mp hv with he | hm
        · exact absurd (congrArg Prod.fst he).symm hkk
        · exact Or.inl ⟨v, hm⟩
      · right
        simp only
        rw [lookupA_setA_ne _ _ _ _ (fun e => hkk e.symm)]
        exact hd2

theorem extract_data_other (resp : Json) (total : Json)
    (h : isOtherShape resp = true) :
    extract_data resp total = (.arr [], total) := by
  cases resp with
  | obj kvs =>
    simp only [isOtherShape, Bool.not_eq_true'] at h
    simp [extract_data, h]
  | arr xs => simp [isOtherShape] at h
  | null => rfl
  | bool b => rfl
  | num n => rfl
  | str s => rfl

theorem runLoop_head (env : Env) (fuel i : Nat) (st : RunState)
    (hstop : env.stopAt i = false) :
    (runLoop env (fuel + 1) i st).1.head? = some st.page := by
  simp only [runLoop, hstop]
  cases h : env.http i with
  | transportError => simp
  | body parsed =>
    simp only
    repeat' split
    all_goals simp_all

theorem runLoop_empty_eq (env : Env) (fuel i : Nat) (st : RunState)
    (parsed : Option Json)
    (hstop : env.stopAt i = false)
    (hhttp : env.http i = .body parsed)
    (hempty : pyTruthy (extract_data (fetch_page_value parsed) st.total).1 = false) :
    runLoop env (fuel + 1) i st =
      ([st.page], .complete,
       { st with
         lastKv := setA (setA st.lastKv "page" (.num st.page)) "complete"
           (.bool true),
         total := (extract_data (fetch_page_value parsed) st.total).2,
         bm := (force_save_all st.bm
           { st.disk with lastFile := some (.obj (setA (setA st.lastKv "page"
               (.num st.page)) "complete" (.bool true))) }).1,
         disk := (force_save_all st.bm
           { st.disk with lastFile := some (.obj (setA (setA st.lastKv "page"
               (.num st.page)) "complete" (.bool true))) }).2 }) := by
  simp only [runLoop, hstop, hhttp, Bool.false_eq_true, if_false, hempty]

/-- C3: when the crawl loop observes an empty record array at page P it
persists the checkpoint with `page` still P (not P+1) and `complete=true`,
flushes every loaded bucket to disk, and performs no further fetch — the
fetch trace of the remaining run is exactly `[P]` and the loop ends in the
`complete` state. -/
theorem run_completes_on_empty (env : Env) (fuel i : Nat) (st : RunState)
    (resp : Json)
    (hstop : env.stopAt i = false)
    (hhttp : env.http i = .body (some resp))
    (hempty : pyTruthy (extract_data resp st.total).1 = false) :
    runLoop env (fuel + 1) i st =
      ([st.page], .complete,
       { st with
         lastKv := setA (setA st.lastKv "page" (.num st.page)) "complete"
           (.bool true),
         total := (extract_data resp st.total).2,
         bm := (force_save_all st.bm
           { st.disk with lastFile := some (.obj (setA (setA st.lastKv "page"
               (.num st.page)) "complete" (.bool true))) }).1,
         disk := (force_save_all st.bm
           { st.disk with lastFile := some (.obj (setA (setA st.lastKv "page"
               (.num st.page)) "complete" (.bool true))) }).2 }) ∧
    (runLoop env (fuel + 1) i st).2.2.disk.lastFile =
      some (.obj (setA (setA st.lastKv "page" (.num st.page)) "complete"
        (.bool true))) ∧
    (∀ (k : Int × Int) (b : Bucket), lookupA st.bm.cache k = some b →
       lookupA (runLoop env (fuel + 1) i st).2.2.disk.bucketFiles k = some b) := by
  have h1 : runLoop env (fuel + 1) i st =
      ([st.page], .complete,
       { st with
         lastKv := setA (setA st.lastKv "page" (.num st.page)) "complete"
           (.bool true),
         total := (extract_data resp st.total).2,
         bm := (force_save_all st.bm
           { st.disk with lastFile := some (.obj (setA (setA st.lastKv "page"
               (.num st.page)) "complete" (.bool true))) }).1,
         disk := (force_save_all st.bm
           { st.disk with lastFile := some (.obj (setA (setA st.lastKv "page"
               (.num st.page)) "complete" (.bool true))) }).2 }) := by
    have h0 := runLoop_empty_eq env fuel i st (some resp) hstop hhttp
      (by simpa [fetch_page_value] using hempty)
    simpa [fetch_page_value] using h0
  refine ⟨h1, ?_, ?_⟩
  · rw [h1]
    exact forceGo_lastFile st.bm.cache st.bm _
  · intro k b hb
    rw [h1]
    exact forceGo_lookup st.bm.cache st.bm _ k b hb
      (Or.inl ⟨b, lookupA_mem st.bm.cache k b hb⟩)

/-- C3 witness: a concrete one-bucket store receiving an empty page ends in
the `complete` state with the cached bucket flushed to disk. -/
theorem run_completes_on_empty_witness :
    (runLoop ⟨fun _ => .body (some (.arr [])), fun _ => false, fun _ => false⟩
        1 0 ⟨3, [("page", .num 3)], .null,
          ⟨[((0, 0), [("x", ⟨[], [1]⟩)])], [((0, 0), true)]⟩,
          ⟨none, []⟩⟩).2.1 = Outcome.complete ∧
    lookupA (runLoop
        ⟨fun _ => .body (some (.arr [])), fun _ => false, fun _ => false⟩
        1 0 ⟨3, [("page", .num 3)], .null,
          ⟨[((0, 0), [("x", ⟨[], [1]⟩)])], [((0, 0), true)]⟩,
          ⟨none, []⟩⟩).2.2.disk.bucketFiles (0, 0) = some [("x", ⟨[], [1]⟩)] :=
  ⟨by rw [(run_completes_on_empty
      ⟨fun _ => .body (some (.arr [])), fun _ => false, fun _ => false⟩ 0 0
      ⟨3, [("page", .num 3)], .null,
        ⟨[((0, 0), [("x", ⟨[], [1]⟩)])], [((0, 0), true)]⟩, ⟨none, []⟩⟩
      (.arr []) rfl rfl rfl).1],
   (run_completes_on_empty
      ⟨fun _ => .body (some (.arr [])), fun _ => false, fun _ => false⟩ 0 0
      ⟨3, [("page", .num 3)], .null,
        ⟨[((0, 0), [("x", ⟨[], [1]⟩)])], [((0, 0), true)]⟩, ⟨none, []⟩⟩
      (.arr []) rfl rfl rfl).2.2 (0, 0) [("x", ⟨[], [1]⟩)] rfl⟩

/-- C5: a transport failure during a fetch is never fatal and commits
nothing — the iteration records the attempted page and continues with the
page cursor, the in-memory checkpoint, the bucket store and the disk all
exactly as before the failed fetch (the recursive call receives the
unchanged state and the same page). -/
theorem run_retries_on_transport (env : Env) (fuel i : Nat) (st : RunState)
    (hstop : env.stopAt i = false)
    (hhttp : env.http i = .transportError) :
    runLoop env (fuel + 1) i st =
      (st.page :: (runLoop env fuel (i + 1) st).1,
       (runLoop env fuel (i + 1) st).2.1,
       (runLoop env fuel (i + 1) st).2.2) := by
  simp only [runLoop, hstop, hhttp, Bool.false_eq_true, if_false]

/-- C5 witness: a concrete transport failure leaves the state untouched and
retries page 1. -/
theorem run_retries_on_transport_witness :
    runLoop ⟨fun _ => .transportError, fun _ => false, fun _ => false⟩ 1 0
        ⟨1, [("page", .num 1)], .null, ⟨[], []⟩, ⟨none, []⟩⟩ =
      ((1 : Int) ::
         (runLoop ⟨fun _ => .transportError, fun _ => false, fun _ => false⟩
           0 1 ⟨1, [("page", .num 1)], .null, ⟨[], []⟩, ⟨none, []⟩⟩).1,
       (runLoop ⟨fun _ => .transportError, fun _ => false, fun _ => false⟩
         0 1 ⟨1, [("page", .num 1)], .null, ⟨[], []⟩, ⟨none, []⟩⟩).2.1,
       (runLoop ⟨fun _ => .transportError, fun _ => false, fun _ => false⟩
         0 1 ⟨1, [("page", .num 1)], .null, ⟨[], []⟩, ⟨none, []⟩⟩).2.2) :=
  run_retries_on_transport
    ⟨fun _ => .transportError, fun _ => false, fun _ => false⟩ 0 0
    ⟨1, [("page", .num 1)], .null, ⟨[], []⟩, ⟨none, []⟩⟩ rfl rfl

/-- C8: a response body that is not JSON, or whose JSON shape is neither an
envelope with a `data` field nor a bare array, is handled exactly like an
empty page: the remaining run is identical to one that received a true
empty array at this iteration, the loop ends in the `complete` state, and
the checkpoint is persisted with the current page and `complete=true`. -/
theorem run_completes_on_bad_body (env : Env) (fuel i : Nat) (st : RunState)
    (hstop : env.stopAt i = false)
    (hbad : env.http i = .body none ∨
      ∃ resp, env.http i = .body (some resp) ∧ isOtherShape resp = true) :
    runLoop env (fuel + 1) i st =
      runLoop
        { env with
          http := fun j => if j = i then .body (some (.arr [])) else env.http j }
        (fuel + 1) i st ∧
    (runLoop env (fuel + 1) i st).2.1 = Outcome.complete ∧
    (runLoop env (fuel + 1) i st).2.2.disk.lastFile =
      some (.obj (setA (setA st.lastKv "page" (.num st.page)) "complete"
        (.bool true))) := by
  have hR := runLoop_empty_eq
    { env with
      http := fun j => if j = i then .body (some (.arr [])) else env.http j }
    fuel i st (some (.arr [])) hstop (by simp) rfl
  simp only [fetch_page_value, Option.getD_some, extract_data] at hR
  have hL : runLoop env (fuel + 1) i st =
      ([st.page], .complete,
       { st with
         lastKv := setA (setA st.lastKv "page" (.num st.page)) "complete"
           (.bool true),
         total := st.total,
         bm := (force_save_all st.bm
           { st.disk with lastFile := some (.obj (setA (setA st.lastKv "page"
               (.num st.page)) "complete" (.bool true))) }).1,
         disk := (force_save_all st.bm
           { st.disk with lastFile := some (.obj (setA (setA st.lastKv "page"
               (.num st.page)) "complete" (.bool true))) }).2 }) := by
    rcases hbad with hN | ⟨resp, hS, hshape⟩
    · have h0 := runLoop_empty_eq env fuel i st none hstop hN rfl
      simpa [fetch_page_value, extract_data, lookupA] using h0
    · have he := extract_data_other resp st.total hshape
      have h0 := runLoop_empty_eq env fuel i st (some resp) hstop hS
        (by simp [fetch_page_value, he, pyTruthy])
      simp only [fetch_page_value, Option.getD_some, he] at h0
      exact h0
  refine ⟨?_, ?_, ?_⟩
  · rw [hL, hR]
  · rw [hL]
  · rw [hL]
    exact forceGo_lastFile st.bm.cache st.bm _

/-- C8 witness: a non-JSON body (and separately a bare-string body) ends
the crawl exactly like an empty page, with `complete=true` persisted at the
current page. -/
theorem run_completes_on_bad_body_witness :
    (runLoop ⟨fun _ => .body none, fun _ => false, fun _ => false⟩ 1 0
        ⟨2, [], .null, ⟨[], []⟩, ⟨none, []⟩⟩).2.1 = Outcome.complete ∧
    (runLoop ⟨fun _ => .body none, fun _ => false, fun _ => false⟩ 1 0
        ⟨2, [], .null, ⟨[], []⟩, ⟨none, []⟩⟩).2.2.disk.lastFile =
      some (.obj (setA (setA [] "page" (.num 2)) "complete" (.bool true))) :=
  ⟨(run_completes_on_bad_body
      ⟨fun _ => .body none, fun _ => false, fun _ => false⟩ 0 0
      ⟨2, [], .null, ⟨[], []⟩, ⟨none, []⟩⟩ rfl (Or.inl rfl)).2.1,
   (run_completes_on_bad_body
      ⟨fun _ => .body none, fun _ => false, fun _ => false⟩ 0 0
      ⟨2, [], .null, ⟨[], []⟩, ⟨none, []⟩⟩ rfl (Or.inl rfl)).2.2⟩

/-- C4: the crawl resumes from the persisted checkpoint: with a checkpoint
file recording page 7, the first fetched page of any run whose first
iteration is not stopped is 7 (never 1); with the file absent or unreadable
the loaded state starts at page 1; and a stored page value ≤ 0 is clamped
to 1. -/
theorem resume_from_checkpoint :
    (∀ (env : Env) (fuel : Nat) (bfs : List ((Int × Int) × Bucket)),
       env.stopAt 0 = false →
       (runCrawl env (fuel + 1) (some (.obj [("page", .num 7)])) bfs).map
           (fun r => r.1.head?) = some (some 7)) ∧
    (∀ bfs : List ((Int × Int) × Bucket),
       (initState none bfs).map RunState.page = some 1) ∧
    (∀ (bfs : List ((Int × Int) × Bucket)) (n : Int), n ≤ 0 →
       (initState (some (.obj [("page", .num n)])) bfs).map RunState.page =
         some 1) := by
  refine ⟨?_, ?_, ?_⟩
  · intro env fuel bfs hstop
    have hi : initState (some (.obj [("page", .num 7)])) bfs =
        some ⟨7, [("page", .num 7)], .null, ⟨[], []⟩,
              ⟨some (.obj [("page", .num 7)]), bfs⟩⟩ := by
      norm_num [initState, lookupA]
    rw [runCrawl, hi]
    simp only [Option.map_some']
    rw [runLoop_head env fuel 0 _ hstop]
  · intro bfs
    norm_num [initState, lookupA]
  · intro bfs n hn
    simp [initState, lookupA, hn]

/-- C4 witness: a checkpoint of page 7 makes the first fetch hit page 7; a
missing checkpoint starts at page 1; a stored page of -2 is clamped to 1. -/
theorem resume_from_checkpoint_witness :
    (runCrawl ⟨fun _ => .transportError, fun _ => false, fun _ => false⟩ 1
        (some (.obj [("page", .num 7)])) []).map (fun r => r.1.head?) =
      some (some 7) ∧
    (initState none []).map RunState.page = some 1 ∧
    (initState (some (.obj [("page", .num (-2))])) []).map RunState.page =
      some 1 :=
  ⟨resume_from_checkpoint.1
     ⟨fun _ => .transportError, fun _ => false, fun _ => false⟩ 0 [] rfl,
   resume_from_checkpoint.2.1 [],
   resume_from_checkpoint.2.2 [] (-2) (by decide)⟩

end Scrape
